import Mathlib

/-!
Verification of the orchestration core of the DOJ legal-research multi-agent
system.  The definitions below are shallow embeddings of the Python source:

* `SharedMemoryStore.share_knowledge`, `get_shared_knowledge`,
  `get_communication_summary`   (src/doj_research_agent/core/multi_agent_models.py)
* `MetaAgentOrchestrator._analyze_system_convergence`, `_meta_evaluation_node`,
  `_meta_agent_control_node` / `_fallback_execution_plan`, `run`
  (src/doj_research_agent/meta_orchestrator.py)
* `MultiAgentOrchestrator._coordinate_agents_node`, `run`
  (src/doj_research_agent/multi_agent_orchestrator.py)
* `MetaAgent._estimate_task_duration`, `_calculate_optimal_batch_size`,
  `_evaluate_strategy_fitness`, `_optimize_coordination`
  (src/doj_research_agent/agents/meta_agent.py)

Python machine floats are modelled by exact rationals (`Rat`): at every
threshold the source compares (k/5 against 0.8 and 0.6, n*0.3 against an
integer, base scores 0.7+0.15 against 0.85, 16/20 against 0.8, and so on)
the IEEE-754 double computation and the rational computation agree, so the
embedding is faithful at those points.  Python exceptions are modelled with
`Except`; Python dicts with association lists or with `Option`-valued
functions; wall-clock `timestamp` fields, which no claim depends on, are
elided from the returned records.
-/

namespace DOJResearch

/-- An entry of `agent_communication_queue` (only its length is ever read by
the functions embedded here, but we keep the `from`/`to`/`type` shape of the
Python message dicts). -/
structure AgentMessage where
  source : String
  target : String
  msgType : String
deriving DecidableEq, Repr

/-- The fields of the Python `EvaluationResult` used by the orchestration
core; the convergence analysis only tests presence (`is not None`). -/
structure EvaluationResult where
  accuracy : Rat
  evalPrecision : Rat
  evalRecall : Rat
  f1 : Rat
deriving DecidableEq, Repr

/-- The slice of the Python `MultiAgentState` TypedDict read by the
convergence analysis and by strategy-fitness scoring. -/
structure MAState where
  urlsToProcess : List String
  analyzedCases : List String
  failedUrls : List String
  evaluationResult : Option EvaluationResult
  processingRound : Nat
  agentCommunicationQueue : List AgentMessage
deriving DecidableEq, Repr

/-- The five-entry `convergence_criteria` dict built by
`MetaAgentOrchestrator._analyze_system_convergence` (keys in source order). -/
structure ConvergenceCriteria where
  urlProcessingComplete : Bool
  sufficientCasesAnalyzed : Bool
  evaluationCompleted : Bool
  metaRoundsSufficient : Bool
  systemStable : Bool
deriving DecidableEq, Repr

/-- `sum(criteria.values())` of the Python dict: the number of criteria that
hold, as a natural number. -/
def ConvergenceCriteria.count (c : ConvergenceCriteria) : Nat :=
  (if c.urlProcessingComplete then 1 else 0) +
  (if c.sufficientCasesAnalyzed then 1 else 0) +
  (if c.evaluationCompleted then 1 else 0) +
  (if c.metaRoundsSufficient then 1 else 0) +
  (if c.systemStable then 1 else 0)

/-- The part of the dict returned by `_analyze_system_convergence` that is a
function of the state snapshot (the wall-clock `timestamp` and the derived
`completion_factors` entries are elided; no claim concerns them). -/
structure ConvergenceAnalysis where
  convergenceCriteria : ConvergenceCriteria
  convergenceScore : Rat
  recommendation : String
deriving DecidableEq, Repr

/-- Embedding of `MetaAgentOrchestrator._analyze_system_convergence`
(meta_orchestrator.py).  `maxRounds` is
`self.coordination_config.max_processing_rounds`.  Python's
`max_rounds - 1` and Nat truncated subtraction agree on the branch
condition: for `max_rounds = 0` both make `round >= max_rounds - 1` true. -/
def analyzeSystemConvergence (maxRounds : Nat) (state : MAState) :
    ConvergenceAnalysis :=
  let criteria : ConvergenceCriteria :=
    { urlProcessingComplete := decide (state.urlsToProcess.length = 0)
      sufficientCasesAnalyzed := decide (5 ≤ state.analyzedCases.length)
      evaluationCompleted := state.evaluationResult.isSome
      metaRoundsSufficient := decide (2 ≤ state.processingRound)
      systemStable :=
        decide ((state.failedUrls.length : Rat) ≤
          (state.analyzedCases.length : Rat) * (3 / 10)) }
  let convergenceScore : Rat := (criteria.count : Rat) / 5
  let currentRound := state.processingRound
  let recommendation : String :=
    if (4 / 5 : Rat) ≤ convergenceScore ∨ maxRounds ≤ currentRound then
      "finalize"
    else if (3 / 5 : Rat) ≤ convergenceScore ∧ maxRounds - 1 ≤ currentRound then
      "finalize"
    else
      "continue"
  { convergenceCriteria := criteria
    convergenceScore := convergenceScore
    recommendation := recommendation }

/-- The dict returned by `MultiAgentOrchestrator._check_convergence`
(multi_agent_orchestrator.py): four criteria (source key order), their mean
as the score, and `should_continue` / `recommendation` both derived from
`score < 0.8`. -/
structure ConvergenceStatus where
  urlProcessingComplete : Bool
  sufficientCasesAnalyzed : Bool
  evaluationCompleted : Bool
  maxRoundsReached : Bool
  convergenceScore : Rat
  shouldContinue : Bool
  recommendation : String
deriving DecidableEq, Repr

/-- Embedding of `MultiAgentOrchestrator._check_convergence`. -/
def checkConvergence (maxRounds : Nat) (state : MAState) : ConvergenceStatus :=
  let c1 := decide (state.urlsToProcess.length = 0)
  let c2 := decide (5 ≤ state.analyzedCases.length)
  let c3 := state.evaluationResult.isSome
  let c4 := decide (maxRounds ≤ state.processingRound)
  let score : Rat :=
    ((if c1 then 1 else 0) + (if c2 then 1 else 0) +
     (if c3 then 1 else 0) + (if c4 then 1 else 0) : Nat) / 4
  { urlProcessingComplete := c1
    sufficientCasesAnalyzed := c2
    evaluationCompleted := c3
    maxRoundsReached := c4
    convergenceScore := score
    shouldContinue := decide (score < 4 / 5)
    recommendation := if score < (4 / 5 : Rat) then "continue" else "finalize" }

/-- C1: the convergence evaluation is a pure function of the state snapshot:
the five criteria are exactly {backlog empty, ≥ 5 analyzed cases, evaluation
result present, ≥ 2 rounds, failed ≤ 0.3 · analyzed}; the score is the mean
of the criteria as 0/1 values; the recommendation is "finalize" exactly when
score ≥ 0.8, or round ≥ maxRounds, or (score ≥ 0.6 and round ≥ maxRounds−1),
and "continue" otherwise. -/
theorem analyzeSystemConvergence_spec (maxRounds : Nat) (s : MAState) :
    ((analyzeSystemConvergence maxRounds s).convergenceCriteria.urlProcessingComplete
      ↔ s.urlsToProcess = [])
    ∧ ((analyzeSystemConvergence maxRounds s).convergenceCriteria.sufficientCasesAnalyzed
      ↔ 5 ≤ s.analyzedCases.length)
    ∧ ((analyzeSystemConvergence maxRounds s).convergenceCriteria.evaluationCompleted
      ↔ s.evaluationResult ≠ none)
    ∧ ((analyzeSystemConvergence maxRounds s).convergenceCriteria.metaRoundsSufficient
      ↔ 2 ≤ s.processingRound)
    ∧ ((analyzeSystemConvergence maxRounds s).convergenceCriteria.systemStable
      ↔ (s.failedUrls.length : Rat) ≤ (3 / 10) * s.analyzedCases.length)
    ∧ (analyzeSystemConvergence maxRounds s).convergenceScore =
      ((if (analyzeSystemConvergence maxRounds s).convergenceCriteria.urlProcessingComplete then (1 : Rat) else 0) +
       (if (analyzeSystemConvergence maxRounds s).convergenceCriteria.sufficientCasesAnalyzed then (1 : Rat) else 0) +
       (if (analyzeSystemConvergence maxRounds s).convergenceCriteria.evaluationCompleted then (1 : Rat) else 0) +
       (if (analyzeSystemConvergence maxRounds s).convergenceCriteria.metaRoundsSufficient then (1 : Rat) else 0) +
       (if (analyzeSystemConvergence maxRounds s).convergenceCriteria.systemStable then (1 : Rat) else 0)) / 5
    ∧ ((analyzeSystemConvergence maxRounds s).recommendation = "finalize"
      ↔ (4 / 5 : Rat) ≤ (analyzeSystemConvergence maxRounds s).convergenceScore
        ∨ maxRounds ≤ s.processingRound
        ∨ ((3 / 5 : Rat) ≤ (analyzeSystemConvergence maxRounds s).convergenceScore
            ∧ maxRounds - 1 ≤ s.processingRound))
    ∧ ((analyzeSystemConvergence maxRounds s).recommendation = "finalize"
      ∨ (analyzeSystemConvergence maxRounds s).recommendation = "continue") := by
  refine ⟨?_, ?_, ?_, ?_, ?_, ?_, ?_, ?_⟩
  · simp [analyzeSystemConvergence, List.length_eq_zero]
  · simp [analyzeSystemConvergence]
  · simp [analyzeSystemConvergence, Option.isSome_iff_ne_none]
  · simp [analyzeSystemConvergence]
  · simp [analyzeSystemConvergence, mul_comm]
  · simp only [analyzeSystemConvergence, ConvergenceCriteria.count]
    split_ifs <;> norm_num
  · simp only [analyzeSystemConvergence]
    split_ifs with h1 h2
    · simp only [true_iff, iff_true]
      tauto
    · simp only [true_iff, iff_true]
      tauto
    · have hne : ("continue" : String) ≠ "finalize" := by decide
      simp only [hne, false_iff, iff_false]
      tauto
  · simp only [analyzeSystemConvergence]
    split_ifs <;> simp

/-- C8: the convergence evaluation is deterministic as a two-run property:
evaluating two identical `MAState` snapshots yields identical criteria,
identical score and identical recommendation, in both the meta-orchestrator
analysis and the multi-agent orchestrator check (the snapshots are their
only input). -/
theorem convergence_deterministic (maxRounds : Nat) (s1 s2 : MAState)
    (h : s1 = s2) :
    (analyzeSystemConvergence maxRounds s1).convergenceCriteria =
      (analyzeSystemConvergence maxRounds s2).convergenceCriteria
    ∧ (analyzeSystemConvergence maxRounds s1).convergenceScore =
      (analyzeSystemConvergence maxRounds s2).convergenceScore
    ∧ (analyzeSystemConvergence maxRounds s1).recommendation =
      (analyzeSystemConvergence maxRounds s2).recommendation
    ∧ checkConvergence maxRounds s1 = checkConvergence maxRounds s2 := by
  subst h
  exact ⟨rfl, rfl, rfl, rfl⟩

/-- A concrete state snapshot used to instantiate theorems with hypotheses. -/
def sampleState : MAState :=
  { urlsToProcess := ["https://www.justice.gov/x"]
    analyzedCases := ["case1", "case2"]
    failedUrls := []
    evaluationResult := none
    processingRound := 1
    agentCommunicationQueue := [] }

/-- Witness for C8 at a concrete snapshot. -/
theorem convergence_deterministic_witness :
    (analyzeSystemConvergence 3 sampleState).convergenceCriteria =
      (analyzeSystemConvergence 3 sampleState).convergenceCriteria
    ∧ (analyzeSystemConvergence 3 sampleState).convergenceScore =
      (analyzeSystemConvergence 3 sampleState).convergenceScore
    ∧ (analyzeSystemConvergence 3 sampleState).recommendation =
      (analyzeSystemConvergence 3 sampleState).recommendation
    ∧ checkConvergence 3 sampleState = checkConvergence 3 sampleState :=
  convergence_deterministic 3 sampleState sampleState rfl

/-- The slice of the Python `MultiAgentResults` dataclass relevant to the
`run()` error contract (dataclass defaults: `success = True`,
`error_log = []`, `processing_rounds = 0`); an error-log entry is modelled
by its `error` string, the wall-clock `timestamp` elided. -/
structure MultiAgentResults where
  processingRounds : Nat := 0
  success : Bool := true
  errorLog : List String := []
deriving DecidableEq, Repr

/-- Embedding of `MetaAgentOrchestrator.run`: the whole `try` body (graph
invocation plus result extraction) is one fallible computation producing a
`MultiAgentResults`; the `except Exception` branch builds a fresh results
object with `success = False` and a one-entry error log.  Totality of this
function is the "never propagates an exception" behaviour. -/
def metaOrchestratorRun (body : Except String MultiAgentResults) :
    MultiAgentResults :=
  match body with
  | .ok results => results
  | .error e => { success := false, errorLog := [e] }

/-- Embedding of `MultiAgentOrchestrator.run`, whose try/except structure is
identical to `MetaAgentOrchestrator.run`. -/
def multiAgentOrchestratorRun (body : Except String MultiAgentResults) :
    MultiAgentResults :=
  match body with
  | .ok results => results
  | .error e => { success := false, errorLog := [e] }

/-- C2: `run` never propagates an exception: it is total on every outcome of
the workflow body, returns a successful body's results unchanged, and
converts every raised exception into a returned result with
`success = false` and a non-empty error log. -/
theorem run_never_throws (body : Except String MultiAgentResults) :
    (∀ r, body = Except.ok r →
      metaOrchestratorRun body = r ∧ multiAgentOrchestratorRun body = r)
    ∧ (∀ e, body = Except.error e →
      (metaOrchestratorRun body).success = false
      ∧ (metaOrchestratorRun body).errorLog ≠ []
      ∧ (multiAgentOrchestratorRun body).success = false
      ∧ (multiAgentOrchestratorRun body).errorLog ≠ []) := by
  constructor
  · intro r hr
    subst hr
    exact ⟨rfl, rfl⟩
  · intro e he
    subst he
    refine ⟨rfl, ?_, rfl, ?_⟩ <;> simp [metaOrchestratorRun, multiAgentOrchestratorRun]

/-- Witness for C2 at a concrete raised exception. -/
theorem run_never_throws_witness :
    (metaOrchestratorRun (Except.error "workflow failure")).success = false
    ∧ (metaOrchestratorRun (Except.error "workflow failure")).errorLog ≠ []
    ∧ (multiAgentOrchestratorRun (Except.error "workflow failure")).success = false
    ∧ (multiAgentOrchestratorRun (Except.error "workflow failure")).errorLog ≠ [] :=
  (run_never_throws (Except.error "workflow failure")).2 "workflow failure" rfl

/-- The execution-plan dict produced by
`MetaAgentOrchestrator._generate_execution_plan` / `_fallback_execution_plan`
(the `agent_priorities` and `resource_allocation` sub-dicts, empty in the
fallback plan, are elided). -/
structure ExecutionPlan where
  coordinationMode : String
  executionOrder : List String
  parallelGroups : List (List String)
  metaOversight : Bool
  fallbackMode : Bool
deriving DecidableEq, Repr

/-- Embedding of `MetaAgentOrchestrator._fallback_execution_plan`. -/
def fallbackExecutionPlan : ExecutionPlan :=
  { coordinationMode := "sequential"
    executionOrder := ["research_agent", "legal_intelligence_agent", "evaluation_agent"]
    parallelGroups := []
    metaOversight := false
    fallbackMode := true }

/-- The update dict returned by the `except` branch of
`MetaAgentOrchestrator._meta_agent_control_node`. -/
structure MetaControlUpdate where
  metaAgentError : Option String
  metaExecutionPlan : ExecutionPlan
  metaControlActive : Bool
deriving DecidableEq, Repr

/-- Embedding of the `except Exception` branch of
`_meta_agent_control_node`: the branch taken whenever the Meta-Agent
planning/strategy step (`meta_agent.process` and plan generation) raises. -/
def metaAgentControlOnError (e : String) : MetaControlUpdate :=
  { metaAgentError := some e
    metaExecutionPlan := fallbackExecutionPlan
    metaControlActive := false }

/-- Embedding of `MetaAgent._calculate_optimal_batch_size`
(agents/meta_agent.py): per-strategy batch sizes with default 5. -/
def calculateOptimalBatchSize (strategy : String) : Nat :=
  if strategy = "sequential" then 3
  else if strategy = "parallel" then 8
  else if strategy = "adaptive" then 5
  else if strategy = "load_balanced" then 6
  else if strategy = "hierarchical" then 4
  else 5

/-- Counterexample to C3: when planning raises, the recorded fallback plan's
coordination mode is "sequential" (whose table batch size is 3), not the
"hierarchical" mode with batch size 4 that the claim states. -/
theorem fallback_not_hierarchical :
    (metaAgentControlOnError "planning failed").metaExecutionPlan.coordinationMode
      = "sequential"
    ∧ (metaAgentControlOnError "planning failed").metaExecutionPlan.coordinationMode
      ≠ "hierarchical"
    ∧ calculateOptimalBatchSize
        (metaAgentControlOnError "planning failed").metaExecutionPlan.coordinationMode = 3 := by
  refine ⟨rfl, ?_, rfl⟩
  decide

/-- C3 (amended): whenever the Meta-Agent planning/strategy step raises, the
orchestrator proceeds with the Sequential fallback execution plan — fixed
order research → legal-intelligence → evaluation, no parallel groups, meta
oversight off, fallback flag set — and records the error message; the
Hierarchical-with-batch-size-4 association exists only in the strategy
batch-size table. -/
theorem fallback_plan_spec (e : String) :
    metaAgentControlOnError e =
      { metaAgentError := some e
        metaExecutionPlan :=
          { coordinationMode := "sequential"
            executionOrder :=
              ["research_agent", "legal_intelligence_agent", "evaluation_agent"]
            parallelGroups := []
            metaOversight := false
            fallbackMode := true }
        metaControlActive := false }
    ∧ calculateOptimalBatchSize "sequential" = 3
    ∧ calculateOptimalBatchSize "hierarchical" = 4 :=
  ⟨rfl, rfl, rfl⟩

/-- The update dict returned by `MetaAgentOrchestrator._meta_evaluation_node`
(the per-round evaluation step): both the normal branch and the
`except Exception` branch return `state.processing_round + 1`. -/
structure MetaEvaluationUpdate where
  processingRound : Nat
  metaRecommendation : String
  metaEvaluationError : Option String
deriving DecidableEq, Repr

/-- Embedding of `_meta_evaluation_node`.  `failure = some e` models the
evaluation body raising exception `e`, which the node catches. -/
def metaEvaluationNode (maxRounds : Nat) (state : MAState)
    (failure : Option String) : MetaEvaluationUpdate :=
  match failure with
  | none =>
      { processingRound := state.processingRound + 1
        metaRecommendation := (analyzeSystemConvergence maxRounds state).recommendation
        metaEvaluationError := none }
  | some e =>
      { processingRound := state.processingRound + 1
        metaRecommendation := "continue"
        metaEvaluationError := some e }

/-- Embedding of the round update in
`MultiAgentOrchestrator._coordinate_agents_node`:
`coordination_updates["processing_round"] = state.get("processing_round", 0) + 1`. -/
def coordinateAgentsRound (state : MAState) : Nat := state.processingRound + 1

/-- C4: along any run in which each cycle's state carries the round counter
returned by the evaluation node for the previous cycle's state (whether or
not that cycle's evaluation raised), the counter increases by exactly 1 per
cycle and never decreases; the coordination node's round update is likewise
always `round + 1`. -/
theorem round_increments (maxRounds : Nat) (states : Nat → MAState)
    (failures : Nat → Option String)
    (h : ∀ n, (states (n + 1)).processingRound =
      (metaEvaluationNode maxRounds (states n) (failures n)).processingRound) :
    (∀ n, (states (n + 1)).processingRound = (states n).processingRound + 1)
    ∧ (∀ m n, m ≤ n → (states m).processingRound ≤ (states n).processingRound)
    ∧ (∀ s, coordinateAgentsRound s = s.processingRound + 1) := by
  have h1 : ∀ n, (states (n + 1)).processingRound = (states n).processingRound + 1 := by
    intro n
    rw [h n]
    cases failures n <;> rfl
  refine ⟨h1, ?_, fun s => rfl⟩
  intro m n hmn
  induction n with
  | zero =>
      have : m = 0 := Nat.le_zero.mp hmn
      subst this
      exact le_refl _
  | succ k ih =>
      by_cases hm : m ≤ k
      · have := ih hm
        rw [h1 k]
        omega
      · have hm' : m = k + 1 := by omega
        subst hm'
        exact le_refl _

/-- A concrete run trace for instantiating C4: round `n` carries counter `n`. -/
def traceState (n : Nat) : MAState :=
  { sampleState with processingRound := n }

/-- Witness for C4 on a concrete trace with no evaluation failures. -/
theorem round_increments_witness :
    (traceState 1).processingRound = (traceState 0).processingRound + 1 :=
  ((round_increments 3 traceState (fun _ => none) (fun _ => rfl)).1) 0

/-- A `cross_agent_knowledge` entry: value plus source/target agent ids
(wall-clock timestamp elided). -/
structure KnowledgeEntry (V : Type) where
  value : V
  source : String
  target : String
deriving DecidableEq, Repr

/-- A `communication_log` entry appended by `share_knowledge` (timestamp
elided); `messageId` is `len(self.communication_log)` at append time. -/
structure CommEntry where
  source : String
  target : String
  key : String
  messageId : Nat
deriving DecidableEq, Repr

/-- The `SharedMemoryStore` fields used by the shared-knowledge and
communication-log operations; the Python dict `cross_agent_knowledge` is
modelled as an `Option`-valued function on string keys. -/
structure SharedMemoryStore (V : Type) where
  crossAgentKnowledge : String → Option (KnowledgeEntry V)
  communicationLog : List CommEntry

/-- A freshly constructed store (dataclass `field(default_factory=...)`
defaults: empty dict, empty log). -/
def emptyStore (V : Type) : SharedMemoryStore V :=
  { crossAgentKnowledge := fun _ => none
    communicationLog := [] }

/-- The knowledge key `f"{source_agent}_to_{target_agent}_{key}"`. -/
def knowledgeKey (sourceAgent targetAgent key : String) : String :=
  sourceAgent ++ "_to_" ++ targetAgent ++ "_" ++ key

/-- The append-then-trim step `share_knowledge` performs on the
communication log: append the entry, then keep only the last 1000 entries
(`self.communication_log[-1000:]`) when the length exceeds 1000. -/
def appendTrimmed (log : List CommEntry) (m : CommEntry) : List CommEntry :=
  if 1000 < (log ++ [m]).length then
    (log ++ [m]).drop ((log ++ [m]).length - 1000)
  else log ++ [m]

/-- Embedding of `SharedMemoryStore.share_knowledge`: store the entry under
the composite key and append-and-trim the communication log. -/
def shareKnowledge {V : Type} (store : SharedMemoryStore V)
    (sourceAgent targetAgent key : String) (value : V) : SharedMemoryStore V :=
  { crossAgentKnowledge := fun k =>
      if k = knowledgeKey sourceAgent targetAgent key then
        some ⟨value, sourceAgent, targetAgent⟩
      else store.crossAgentKnowledge k
    communicationLog := appendTrimmed store.communicationLog
      { source := sourceAgent, target := targetAgent, key := key,
        messageId := store.communicationLog.length } }

/-- Embedding of `SharedMemoryStore.get_shared_knowledge`. -/
def getSharedKnowledge {V : Type} (store : SharedMemoryStore V)
    (sourceAgent targetAgent key : String) : Option V :=
  (store.crossAgentKnowledge (knowledgeKey sourceAgent targetAgent key)).map
    (fun e => e.value)

/-- One `share_knowledge` call's arguments. -/
structure ShareOp (V : Type) where
  sourceAgent : String
  targetAgent : String
  key : String
  value : V
deriving DecidableEq, Repr

/-- Apply a sequence of `share_knowledge` calls in order. -/
def applyShares {V : Type} (store : SharedMemoryStore V) :
    List (ShareOp V) → SharedMemoryStore V
  | [] => store
  | op :: ops =>
      applyShares (shareKnowledge store op.sourceAgent op.targetAgent op.key op.value) ops

/-- The (source, target, key) content of a log entry; `messageId` is
excluded because trimming resets the id counter to the trimmed length. -/
def commTriple (m : CommEntry) : String × String × String :=
  (m.source, m.target, m.key)

/-- The unbounded append history of a sequence of share calls. -/
def shareHistory {V : Type} (ops : List (ShareOp V)) :
    List (String × String × String) :=
  ops.map fun op => (op.sourceAgent, op.targetAgent, op.key)

lemma applyShares_append {V : Type} (store : SharedMemoryStore V)
    (ops : List (ShareOp V)) (op : ShareOp V) :
    applyShares store (ops ++ [op]) =
      shareKnowledge (applyShares store ops)
        op.sourceAgent op.targetAgent op.key op.value := by
  induction ops generalizing store with
  | nil => rfl
  | cons o rest ih => simpa [applyShares] using ih _

lemma lastN_step {α : Type} (ys : List α) (a : α) :
    (if 1000 < (ys.drop (ys.length - 1000) ++ [a]).length then
      (ys.drop (ys.length - 1000) ++ [a]).drop
        ((ys.drop (ys.length - 1000) ++ [a]).length - 1000)
    else ys.drop (ys.length - 1000) ++ [a]) =
    (ys ++ [a]).drop ((ys ++ [a]).length - 1000) := by
  rcases le_or_lt ys.length 1000 with hle | hgt
  · have h0 : ys.length - 1000 = 0 := by omega
    rw [h0, List.drop_zero]
    rcases lt_or_eq_of_le hle with hlt | heq
    · have hc : ¬ 1000 < (ys ++ [a]).length := by
        simp only [List.length_append, List.length_singleton]
        omega
      have h1 : (ys ++ [a]).length - 1000 = 0 := by
        simp only [List.length_append, List.length_singleton]
        omega
      rw [if_neg hc, h1, List.drop_zero]
    · have hc : 1000 < (ys ++ [a]).length := by
        simp only [List.length_append, List.length_singleton]
        omega
      rw [if_pos hc]
  · have hxs : (ys.drop (ys.length - 1000)).length = 1000 := by
      rw [List.length_drop]
      omega
    have hc : 1000 < (ys.drop (ys.length - 1000) ++ [a]).length := by
      simp only [List.length_append, List.length_singleton, hxs]
      omega
    rw [if_pos hc]
    have hlen : (ys.drop (ys.length - 1000) ++ [a]).length - 1000 = 1 := by
      simp only [List.length_append, List.length_singleton, hxs]
    rw [hlen]
    have h1 : (ys.drop (ys.length - 1000) ++ [a]).drop 1 =
        (ys.drop (ys.length - 1000)).drop 1 ++ [a] :=
      List.drop_append_of_le_length (by omega)
    rw [h1, List.drop_drop]
    have h2 : (ys ++ [a]).drop ((ys ++ [a]).length - 1000) =
        ys.drop ((ys ++ [a]).length - 1000) ++ [a] := by
      refine List.drop_append_of_le_length ?_
      simp only [List.length_append, List.length_singleton]
      omega
    rw [h2]
    have h3 : ys.length - 1000 + 1 = (ys ++ [a]).length - 1000 := by
      simp only [List.length_append, List.length_singleton]
      omega
    rw [h3]

lemma appendTrimmed_map (l : List CommEntry) (m : CommEntry)
    (h : List (String × String × String))
    (hl : l.map commTriple = h.drop (h.length - 1000)) :
    (appendTrimmed l m).map commTriple =
      (h ++ [commTriple m]).drop ((h ++ [commTriple m]).length - 1000) := by
  have hlen : l.length = (h.drop (h.length - 1000)).length := by
    rw [← hl, List.length_map]
  have step := lastN_step h (commTriple m)
  unfold appendTrimmed
  by_cases hc : 1000 < (l ++ [m]).length
  · rw [if_pos hc, List.map_drop, List.map_append, hl]
    have hc2 : 1000 < l.length + 1 := by
      simpa [List.length_append] using hc
    rw [hlen] at hc2
    have hc' : 1000 < (h.drop (h.length - 1000) ++ [commTriple m]).length := by
      simpa [List.length_append] using hc2
    rw [if_pos hc'] at step
    have hd : (l ++ [m]).length =
        (h.drop (h.length - 1000) ++ [commTriple m]).length := by
      simp [List.length_append, hlen]
    rw [hd]
    simpa using step
  · rw [if_neg hc, List.map_append, hl]
    have hc2 : ¬ 1000 < l.length + 1 := by
      simpa [List.length_append] using hc
    rw [hlen] at hc2
    have hc' : ¬ 1000 < (h.drop (h.length - 1000) ++ [commTriple m]).length := by
      simpa [List.length_append] using hc2
    rw [if_neg hc'] at step
    simpa using step

/-- C5: after every sequence of `share_knowledge` calls starting from a
fresh store, the communication log holds exactly the most recent 1000
appended entries in FIFO order (all of them while fewer than 1000 have been
appended), so its length never exceeds the 1000-entry cap and on overflow
the oldest entries are the ones evicted. -/
theorem comm_log_bounded (V : Type) (ops : List (ShareOp V)) :
    ((applyShares (emptyStore V) ops).communicationLog).length ≤ 1000
    ∧ ((applyShares (emptyStore V) ops).communicationLog).map commTriple =
      (shareHistory ops).drop ((shareHistory ops).length - 1000) := by
  have main : ((applyShares (emptyStore V) ops).communicationLog).map commTriple =
      (shareHistory ops).drop ((shareHistory ops).length - 1000) := by
    induction ops using List.reverseRecOn with
    | nil => simp [applyShares, emptyStore, shareHistory]
    | append_singleton rest op ih =>
        rw [applyShares_append]
        have hist_eq : shareHistory (rest ++ [op]) =
            shareHistory rest ++ [(op.sourceAgent, op.targetAgent, op.key)] := by
          simp [shareHistory]
        rw [hist_eq]
        exact appendTrimmed_map _ _ _ ih
  refine ⟨?_, main⟩
  have := congrArg List.length main
  rw [List.length_map, List.length_drop] at this
  omega

/-- The pair string `f"{comm['source']}->{comm['target']}"`. -/
def pairKey (m : CommEntry) : String :=
  m.source ++ "->" ++ m.target

/-- The dict update `message_types[key] = message_types.get(key, 0) + 1`
on an insertion-ordered association list: bump an existing key in place,
append a new key at the end. -/
def incrKey : List (String × Nat) → String → List (String × Nat)
  | [], k => [(k, 1)]
  | (k', n) :: rest, k =>
      if k' = k then (k', n + 1) :: rest else (k', n) :: incrKey rest k

/-- The `message_types` histogram built by the loop in
`get_communication_summary` (every embedded log entry carries a `key`, so
the `'unknown'` default of `comm.get('key', 'unknown')` is never taken). -/
def typeHistogram (log : List CommEntry) : List (String × Nat) :=
  log.foldl (fun h m => incrKey h m.key) []

/-- The dict returned by `get_communication_summary`.  The empty-log early
return contains only `total_messages` and `agent_pairs`; the absent
`message_types` and `recent_activity` keys are modelled as `none`.
`agentPairs` models Python's `list(set(...))` by its members (the set's
iteration order is unspecified; only membership is meaningful). -/
structure CommSummary where
  totalMessages : Nat
  agentPairs : List String
  messageTypes : Option (List (String × Nat))
  recentActivity : Option (List CommEntry)
deriving DecidableEq, Repr

/-- Embedding of `SharedMemoryStore.get_communication_summary`. -/
def getCommunicationSummary {V : Type} (store : SharedMemoryStore V) :
    CommSummary :=
  if store.communicationLog = [] then
    { totalMessages := 0
      agentPairs := []
      messageTypes := none
      recentActivity := none }
  else
    { totalMessages := store.communicationLog.length
      agentPairs := (store.communicationLog.map pairKey).dedup
      messageTypes := some (typeHistogram store.communicationLog)
      recentActivity := some (store.communicationLog.drop
        (store.communicationLog.length - 10)) }

/-- The sum of the histogram's counts. -/
def sumCounts (h : List (String × Nat)) : Nat :=
  (h.map Prod.snd).sum

lemma sumCounts_incrKey (h : List (String × Nat)) (k : String) :
    sumCounts (incrKey h k) = sumCounts h + 1 := by
  induction h with
  | nil => rfl
  | cons p rest ih =>
      obtain ⟨k', n⟩ := p
      by_cases hk : k' = k
      · simp [incrKey, hk, sumCounts]
        omega
      · simp [incrKey, hk, sumCounts] at ih ⊢
        omega

lemma sumCounts_foldl (log : List CommEntry) :
    ∀ h0 : List (String × Nat),
      sumCounts (log.foldl (fun h m => incrKey h m.key) h0) =
        sumCounts h0 + log.length := by
  induction log with
  | nil => intro h0; simp
  | cons m rest ih =>
      intro h0
      simp only [List.foldl_cons, List.length_cons]
      rw [ih (incrKey h0 m.key), sumCounts_incrKey]
      omega

/-- Counterexample to C9: on the empty log the summary dict returned by
`get_communication_summary` has no `message_types` key at all (and no
`recent_activity`), so it does not contain the per-key type histogram the
claim promises for every log including the empty one. -/
theorem comm_summary_empty_missing_histogram :
    (getCommunicationSummary (emptyStore String)).messageTypes = none
    ∧ (getCommunicationSummary (emptyStore String)).recentActivity = none
    ∧ (getCommunicationSummary (emptyStore String)).totalMessages = 0
    ∧ (getCommunicationSummary (emptyStore String)).agentPairs = [] :=
  ⟨rfl, rfl, rfl, rfl⟩

/-- C9 (amended): for every NON-empty communication log the summary carries
the log's length as total message count, exactly the distinct
source→target pairs occurring in the log, and a per-key type histogram
whose counts sum to the total; for the empty log it is the reduced record
`{total_messages: 0, agent_pairs: []}` without a histogram. -/
theorem comm_summary_spec (V : Type) (store : SharedMemoryStore V)
    (h : store.communicationLog ≠ []) :
    (getCommunicationSummary store).totalMessages = store.communicationLog.length
    ∧ (∀ p, p ∈ (getCommunicationSummary store).agentPairs ↔
        ∃ m ∈ store.communicationLog, pairKey m = p)
    ∧ (getCommunicationSummary store).messageTypes =
        some (typeHistogram store.communicationLog)
    ∧ sumCounts (typeHistogram store.communicationLog) =
        store.communicationLog.length := by
  refine ⟨?_, ?_, ?_, ?_⟩
  · simp [getCommunicationSummary, h]
  · intro p
    simp [getCommunicationSummary, h, List.mem_dedup, List.mem_map]
  · simp [getCommunicationSummary, h]
  · rw [typeHistogram, sumCounts_foldl store.communicationLog []]
    simp [sumCounts]

/-- A concrete non-empty store: two shares from the research agent to the
evaluation agent. -/
def sampleStore : SharedMemoryStore String :=
  shareKnowledge
    (shareKnowledge (emptyStore String)
      "research_agent" "evaluation_agent" "case_patterns" "p1")
    "research_agent" "evaluation_agent" "fraud_indicators" "p2"

/-- Witness for C9 (amended) on a concrete two-entry log. -/
theorem comm_summary_spec_witness :
    sampleStore.communicationLog ≠ []
    ∧ (getCommunicationSummary sampleStore).totalMessages =
        sampleStore.communicationLog.length
    ∧ ("research_agent->evaluation_agent" ∈
          (getCommunicationSummary sampleStore).agentPairs ↔
        ∃ m ∈ sampleStore.communicationLog,
          pairKey m = "research_agent->evaluation_agent")
    ∧ (getCommunicationSummary sampleStore).messageTypes =
        some (typeHistogram sampleStore.communicationLog)
    ∧ sumCounts (typeHistogram sampleStore.communicationLog) =
        sampleStore.communicationLog.length :=
  ⟨by decide,
   (comm_summary_spec String sampleStore (by decide)).1,
   (comm_summary_spec String sampleStore (by decide)).2.1 _,
   (comm_summary_spec String sampleStore (by decide)).2.2.1,
   (comm_summary_spec String sampleStore (by decide)).2.2.2⟩

/-- C10: the composite-key encoding `source + "_to_" + target + "_" + key`
is not injective: the distinct triples ("a", "b_x", "k") and
("a", "b", "x_k") encode to the same stored key, so sharing under one
triple overwrites the value `get_shared_knowledge` returns for the other. -/
theorem knowledge_key_not_injective :
    (("a", "b_x", "k") : String × String × String) ≠ ("a", "b", "x_k")
    ∧ knowledgeKey "a" "b_x" "k" = knowledgeKey "a" "b" "x_k"
    ∧ getSharedKnowledge
        (shareKnowledge (emptyStore String) "a" "b" "x_k" "old")
        "a" "b" "x_k" = some "old"
    ∧ getSharedKnowledge
        (shareKnowledge
          (shareKnowledge (emptyStore String) "a" "b" "x_k" "old")
          "a" "b_x" "k" "new")
        "a" "b" "x_k" = some "new" := by
  refine ⟨by decide, by decide, ?_, ?_⟩ <;>
    simp [getSharedKnowledge, shareKnowledge, knowledgeKey, emptyStore]

/-- `CoordinationStrategy` enum, members in source definition order
(SEQUENTIAL, PARALLEL, ADAPTIVE, HIERARCHICAL, LOAD_BALANCED). -/
inductive CoordinationStrategy
  | sequential
  | parallel
  | adaptive
  | hierarchical
  | loadBalanced
deriving DecidableEq, Repr

/-- `for strategy in CoordinationStrategy` iterates the members in
definition order, which is also the insertion order of the
`strategy_scores` dict in `_optimize_coordination`. -/
def strategyEnumOrder : List CoordinationStrategy :=
  [.sequential, .parallel, .adaptive, .hierarchical, .loadBalanced]

/-- The `base_scores` table of `_evaluate_strategy_fitness`. -/
def strategyBaseScore : CoordinationStrategy → Rat
  | .sequential => 7 / 10
  | .parallel => 8 / 10
  | .adaptive => 85 / 100
  | .loadBalanced => 75 / 100
  | .hierarchical => 72 / 100

/-- Embedding of `MetaAgent._evaluate_strategy_fitness`: base score, the
parallel backlog adjustment (an if/elif pair), the sequential failure-rate
bonus, the adaptive low-load bonus, capped at 1.  At every comparison this
function makes, the IEEE-754 double and exact-rational computations agree
(0.7+0.15 and 0.85 are the same double, 16/20 is exactly 0.8, and so on). -/
def evaluateStrategyFitness (strategy : CoordinationStrategy)
    (state : MAState) : Rat :=
  let casesToProcess := state.urlsToProcess.length
  let systemLoad : Rat := (state.agentCommunicationQueue.length : Rat) / 20
  let score1 :=
    if strategy = .parallel ∧ 10 < casesToProcess then
      strategyBaseScore strategy + 1 / 10
    else if strategy = .parallel ∧ casesToProcess < 3 then
      strategyBaseScore strategy - 1 / 10
    else strategyBaseScore strategy
  let failureRate : Rat := (state.failedUrls.length : Rat) /
    ((max 1 (state.analyzedCases.length + state.failedUrls.length) : Nat) : Rat)
  let score2 :=
    if strategy = .sequential ∧ 1 / 5 < failureRate then score1 + 15 / 100
    else score1
  let score3 :=
    if strategy = .adaptive ∧ systemLoad < 8 / 10 then score2 + 5 / 100
    else score2
  min score3 1

/-- Python's `max` over the `(strategy, score)` items: it keeps the current
best and replaces it only on a strictly greater key, so the first maximal
item in iteration order wins every tie. -/
def maxByFirst {α : Type} (f : α → Rat) : α → List α → α
  | best, [] => best
  | best, x :: rest => maxByFirst f (if f best < f x then x else best) rest

/-- Embedding of the `recommended_strategy` computation in
`MetaAgent._optimize_coordination`:
`max(strategy_scores.items(), key=lambda x: x[1])` over the dict built in
enum order.  The currently active strategy is not an input. -/
def recommendedStrategy (state : MAState) : CoordinationStrategy :=
  maxByFirst (fun st => evaluateStrategyFitness st state)
    .sequential [.parallel, .adaptive, .hierarchical, .loadBalanced]

lemma maxByFirst_mem {α : Type} (f : α → Rat) (b : α) (l : List α) :
    maxByFirst f b l ∈ b :: l := by
  induction l generalizing b with
  | nil => simp [maxByFirst]
  | cons x rest ih =>
      have hres : maxByFirst f b (x :: rest) =
          maxByFirst f (if f b < f x then x else b) rest := rfl
      rw [hres]
      have h := ih (if f b < f x then x else b)
      rcases List.mem_cons.mp h with h1 | h1
      · rw [h1]
        by_cases hc : f b < f x
        · rw [if_pos hc]
          exact List.mem_cons_of_mem _ (List.mem_cons_self _ _)
        · rw [if_neg hc]
          exact List.mem_cons_self _ _
      · exact List.mem_cons_of_mem _ (List.mem_cons_of_mem _ h1)

lemma maxByFirst_ub {α : Type} (f : α → Rat) (b : α) (l : List α) :
    ∀ y ∈ b :: l, f y ≤ f (maxByFirst f b l) := by
  induction l generalizing b with
  | nil =>
      intro y hy
      rcases List.mem_cons.mp hy with h | h
      · subst h; exact le_refl _
      · cases h
  | cons x rest ih =>
      intro y hy
      have hb' : f b ≤ f (if f b < f x then x else b) := by
        by_cases hc : f b < f x
        · rw [if_pos hc]; exact le_of_lt hc
        · rw [if_neg hc]
      have hx' : f x ≤ f (if f b < f x then x else b) := by
        by_cases hc : f b < f x
        · rw [if_pos hc]
        · rw [if_neg hc]; exact le_of_not_lt hc
      have hrec : ∀ z ∈ (if f b < f x then x else b) :: rest,
          f z ≤ f (maxByFirst f (if f b < f x then x else b) rest) :=
        ih (if f b < f x then x else b)
      have hhead := hrec _ (List.mem_cons_self _ _)
      rcases List.mem_cons.mp hy with h | h
      · subst h
        exact le_trans hb' (by simpa [maxByFirst] using hhead)
      · rcases List.mem_cons.mp h with h1 | h1
        · subst h1
          exact le_trans hx' (by simpa [maxByFirst] using hhead)
        · exact hrec y (List.mem_cons_of_mem _ h1) |>.trans_eq (by simp [maxByFirst])

lemma maxByFirst_first {α : Type} (f : α → Rat) (b : α) (l : List α) :
    (b :: l).find?
      (fun x => decide (f (maxByFirst f b l) ≤ f x)) =
      some (maxByFirst f b l) := by
  induction l generalizing b with
  | nil =>
      have hb : maxByFirst f b [] = b := rfl
      rw [hb]
      exact List.find?_cons_of_pos _ (by simp)
  | cons x rest ih =>
      have hres : maxByFirst f b (x :: rest) =
          maxByFirst f (if f b < f x then x else b) rest := rfl
      by_cases hc : f b < f x
      · have hM : maxByFirst f b (x :: rest) = maxByFirst f x rest := by
          rw [hres, if_pos hc]
        have hub : f x ≤ f (maxByFirst f x rest) :=
          maxByFirst_ub f x rest x (List.mem_cons_self _ _)
        have hblt : f b < f (maxByFirst f x rest) := lt_of_lt_of_le hc hub
        rw [hM]
        rw [List.find?_cons_of_neg _ (by simp [not_le_of_lt hblt])]
        exact ih x
      · have hM : maxByFirst f b (x :: rest) = maxByFirst f b rest := by
          rw [hres, if_neg hc]
        rw [hM]
        have ihb := ih b
        by_cases hpb : f (maxByFirst f b rest) ≤ f b
        · have hfb : (b :: rest).find?
              (fun y => decide (f (maxByFirst f b rest) ≤ f y)) = some b :=
            List.find?_cons_of_pos _ (by simp [hpb])
          have hMb : maxByFirst f b rest = b := by
            have h := ihb.symm.trans hfb
            injection h
          rw [hMb]
          exact List.find?_cons_of_pos _ (by simp)
        · have hlt : f b < f (maxByFirst f b rest) := lt_of_not_le hpb
          have h1 : (b :: x :: rest).find?
              (fun y => decide (f (maxByFirst f b rest) ≤ f y)) =
              (x :: rest).find?
                (fun y => decide (f (maxByFirst f b rest) ≤ f y)) :=
            List.find?_cons_of_neg _ (by simp [hpb])
          have hxb : f x ≤ f b := le_of_not_lt hc
          have h2 : (x :: rest).find?
              (fun y => decide (f (maxByFirst f b rest) ≤ f y)) =
              rest.find? (fun y => decide (f (maxByFirst f b rest) ≤ f y)) :=
            List.find?_cons_of_neg _
              (by simp [not_le_of_lt (lt_of_le_of_lt hxb hlt)])
          have h3 : (b :: rest).find?
              (fun y => decide (f (maxByFirst f b rest) ≤ f y)) =
              rest.find? (fun y => decide (f (maxByFirst f b rest) ≤ f y)) :=
            List.find?_cons_of_neg _ (by simp [hpb])
          rw [h1, h2, ← h3]
          exact ihb

/-- A snapshot on which the currently active strategy (the system default,
Adaptive) ties the maximal fitness score but is not selected: 5 backlog
URLs, no analyzed cases, one failed URL (failure rate 1 > 0.2, so
Sequential gets +0.15 = 0.85), and 16 queued messages (load 0.8, so
Adaptive gets no low-load bonus and stays at 0.85). -/
def tieState : MAState :=
  { urlsToProcess := ["u1", "u2", "u3", "u4", "u5"]
    analyzedCases := []
    failedUrls := ["f1"]
    evaluationResult := none
    processingRound := 2
    agentCommunicationQueue :=
      List.replicate 16 ⟨"research_agent", "evaluation_agent", "status_update"⟩ }

/-- Counterexample to C6: on `tieState` the active Adaptive strategy ties
the maximum (0.85) with Sequential, yet the selection is Sequential — the
tie goes to the strategy earliest in enum order, not to the active one. -/
theorem strategy_tie_counterexample :
    evaluateStrategyFitness .adaptive tieState = 17 / 20
    ∧ evaluateStrategyFitness .sequential tieState = 17 / 20
    ∧ evaluateStrategyFitness .parallel tieState = 4 / 5
    ∧ evaluateStrategyFitness .hierarchical tieState = 18 / 25
    ∧ evaluateStrategyFitness .loadBalanced tieState = 3 / 4
    ∧ recommendedStrategy tieState = .sequential
    ∧ CoordinationStrategy.sequential ≠ .adaptive := by
  have hseq : evaluateStrategyFitness .sequential tieState = 17 / 20 := by
    norm_num [evaluateStrategyFitness, strategyBaseScore, tieState] <;> simp <;> norm_num
  have hpar : evaluateStrategyFitness .parallel tieState = 4 / 5 := by
    norm_num [evaluateStrategyFitness, strategyBaseScore, tieState] <;> simp <;> norm_num
  have hadp : evaluateStrategyFitness .adaptive tieState = 17 / 20 := by
    norm_num [evaluateStrategyFitness, strategyBaseScore, tieState] <;> simp <;> norm_num
  have hhier : evaluateStrategyFitness .hierarchical tieState = 18 / 25 := by
    norm_num [evaluateStrategyFitness, strategyBaseScore, tieState] <;> simp <;> norm_num
  have hlb : evaluateStrategyFitness .loadBalanced tieState = 3 / 4 := by
    norm_num [evaluateStrategyFitness, strategyBaseScore, tieState] <;> simp <;> norm_num
  have c1 : ((17 : Rat) / 20 < 4 / 5) = False := by norm_num
  have c2 : ((17 : Rat) / 20 < 17 / 20) = False := by norm_num
  have c3 : ((17 : Rat) / 20 < 18 / 25) = False := by norm_num
  have c4 : ((17 : Rat) / 20 < 3 / 4) = False := by norm_num
  refine ⟨hadp, hseq, hpar, hhier, hlb, ?_, by simp⟩
  simp [recommendedStrategy, maxByFirst, hseq, hpar, hadp, hhier, hlb, c1, c2, c3, c4]

/-- C6 (amended): strategy selection is independent of the round counter
and of the currently active strategy (which is not an input); the selected
strategy attains the maximal fitness score; and ties are broken in favor of
the strategy earliest in the fixed enum order (sequential, parallel,
adaptive, hierarchical, load_balanced) — the selected strategy is the first
one in that order whose score reaches the maximum.  In particular two
rounds with identical snapshots except the round counter select the same
strategy. -/
theorem strategy_selection_spec (s : MAState) (r : Nat) :
    recommendedStrategy { s with processingRound := r } = recommendedStrategy s
    ∧ recommendedStrategy s ∈ strategyEnumOrder
    ∧ (∀ st ∈ strategyEnumOrder,
        evaluateStrategyFitness st s ≤
          evaluateStrategyFitness (recommendedStrategy s) s)
    ∧ strategyEnumOrder.find?
        (fun st => decide (evaluateStrategyFitness (recommendedStrategy s) s ≤
          evaluateStrategyFitness st s)) = some (recommendedStrategy s) := by
  refine ⟨rfl, ?_, ?_, ?_⟩
  · exact maxByFirst_mem _ _ _
  · exact maxByFirst_ub _ _ _
  · exact maxByFirst_first (fun st => evaluateStrategyFitness st s)
      .sequential [.parallel, .adaptive, .hierarchical, .loadBalanced]

/-- Witness for C6 (amended) on the concrete tie snapshot. -/
theorem strategy_selection_spec_witness :
    recommendedStrategy { tieState with processingRound := 5 } =
      recommendedStrategy tieState
    ∧ evaluateStrategyFitness .adaptive tieState ≤
        evaluateStrategyFitness (recommendedStrategy tieState) tieState :=
  ⟨(strategy_selection_spec tieState 5).1,
   (strategy_selection_spec tieState 5).2.2.1 .adaptive (by decide)⟩

/-- `AgentPriority` enum (LOW, MEDIUM, HIGH, CRITICAL). -/
inductive AgentPriority
  | low
  | medium
  | high
  | critical
deriving DecidableEq, Repr

/-- The fields of `AgentTask` read by duration estimation. -/
structure AgentTask where
  taskId : String
  agentId : String
  taskType : String
  priority : AgentPriority
deriving DecidableEq, Repr

/-- The field of the per-agent performance metrics read by duration
estimation. -/
structure AgentMetrics where
  averageProcessingTime : Rat
deriving DecidableEq, Repr

/-- The `base_durations` table of `_estimate_task_duration`
(`.get(task.task_type, 30.0)`). -/
def baseDurations (taskType : String) : Rat :=
  if taskType = "url_processing" then 30
  else if taskType = "performance_evaluation" then 45
  else if taskType = "legal_intelligence" then 60
  else if taskType = "pattern_analysis" then 40
  else if taskType = "coordination" then 20
  else 30

/-- The `priority_multipliers` table of `_estimate_task_duration` (every
enum member is present, so the `.get(..., 1.0)` default is never taken). -/
def priorityMultiplier : AgentPriority → Rat
  | .low => 12 / 10
  | .medium => 1
  | .high => 8 / 10
  | .critical => 6 / 10

/-- Embedding of `MetaAgent._estimate_task_duration`.  `agentMetrics` models
`self.system_state.agent_metrics.get(task.agent_id)`; the performance factor
`min(avg/base, 2.0)` is applied only under the guard
`if agent_metrics and agent_metrics.average_processing_time > 0`. -/
def estimateTaskDuration (agentMetrics : String → Option AgentMetrics)
    (task : AgentTask) : Rat :=
  let base := baseDurations task.taskType
  let adjusted :=
    match agentMetrics task.agentId with
    | some m =>
        if 0 < m.averageProcessingTime then
          base * min (m.averageProcessingTime / base) 2
        else base
    | none => base
  adjusted * priorityMultiplier task.priority

/-- The duration formula exactly as the spec's words state it:
`baseDuration(type) × min(agentAvgTime/baseDuration, 2.0) ×
priorityMultiplier`. -/
def specTaskDuration (avgTime : Rat) (taskType : String)
    (p : AgentPriority) : Rat :=
  baseDurations taskType * min (avgTime / baseDurations taskType) 2 *
    priorityMultiplier p

/-- A metrics table recording a zero average processing time for every
agent. -/
def zeroAvgMetrics : String → Option AgentMetrics :=
  fun _ => some { averageProcessingTime := 0 }

/-- A medium-priority URL-processing task for the research agent. -/
def urlTask : AgentTask :=
  { taskId := "url_process_0"
    agentId := "research_agent"
    taskType := "url_processing"
    priority := .medium }

/-- Counterexample to C7: when the agent's recorded average processing time
is zero the code skips the performance factor and returns the plain base
duration 30, while the claim's formula
`base × min(avg/base, 2) × multiplier` evaluates to 0. -/
theorem task_duration_zero_avg_counterexample :
    estimateTaskDuration zeroAvgMetrics urlTask = 30
    ∧ specTaskDuration 0 "url_processing" AgentPriority.medium = 0
    ∧ (30 : Rat) ≠ 0 := by
  refine ⟨?_, ?_, by norm_num⟩
  · norm_num [estimateTaskDuration, zeroAvgMetrics, urlTask, baseDurations,
      priorityMultiplier]
  · norm_num [specTaskDuration, baseDurations, priorityMultiplier]

/-- C7 (amended): the estimated duration equals
`baseDuration(type) × min(avg/base, 2) × priorityMultiplier` exactly when
the agent has recorded metrics with a strictly positive average processing
time; when the average is zero or no metrics exist, the performance factor
is skipped and the estimate is `baseDuration(type) × priorityMultiplier`.
Base durations: url_processing 30, performance_evaluation 45,
legal_intelligence 60; multipliers: Low 1.2, Medium 1.0, High 0.8,
Critical 0.6. -/
theorem estimate_task_duration_spec
    (agentMetrics : String → Option AgentMetrics) (task : AgentTask) :
    (∀ m, agentMetrics task.agentId = some m →
      0 < m.averageProcessingTime →
      estimateTaskDuration agentMetrics task =
        specTaskDuration m.averageProcessingTime task.taskType task.priority)
    ∧ (agentMetrics task.agentId = none →
      estimateTaskDuration agentMetrics task =
        baseDurations task.taskType * priorityMultiplier task.priority)
    ∧ (∀ m, agentMetrics task.agentId = some m →
      m.averageProcessingTime ≤ 0 →
      estimateTaskDuration agentMetrics task =
        baseDurations task.taskType * priorityMultiplier task.priority)
    ∧ baseDurations "url_processing" = 30
    ∧ baseDurations "performance_evaluation" = 45
    ∧ baseDurations "legal_intelligence" = 60
    ∧ priorityMultiplier .low = 12 / 10
    ∧ priorityMultiplier .medium = 1
    ∧ priorityMultiplier .high = 8 / 10
    ∧ priorityMultiplier .critical = 6 / 10 := by
  refine ⟨?_, ?_, ?_, by decide, by decide, by decide, rfl, rfl, rfl, rfl⟩
  · intro m hm hpos
    simp only [estimateTaskDuration, specTaskDuration, hm, if_pos hpos]
  · intro hm
    simp only [estimateTaskDuration, hm]
  · intro m hm hnonpos
    simp only [estimateTaskDuration, hm, if_neg (not_lt_of_le hnonpos)]

/-- A metrics table with average processing time 60 for every agent. -/
def slowMetrics : String → Option AgentMetrics :=
  fun _ => some { averageProcessingTime := 60 }

/-- A high-priority URL-processing task. -/
def urlTaskHigh : AgentTask :=
  { taskId := "url_process_1"
    agentId := "research_agent"
    taskType := "url_processing"
    priority := .high }

/-- Witness for C7 (amended): with average 60 on a base-30 url-processing
task at High priority the estimate matches the spec formula
(30 × min(60/30, 2) × 0.8 = 48). -/
theorem estimate_task_duration_spec_witness :
    estimateTaskDuration slowMetrics urlTaskHigh =
      specTaskDuration 60 "url_processing" AgentPriority.high :=
  (estimate_task_duration_spec slowMetrics urlTaskHigh).1
    { averageProcessingTime := 60 } rfl (by norm_num)

end DOJResearch
